import Mathlib

/-!
Shallow embedding of the building-reconstruction pipeline of
`src/app/build3d.py` (classes `Build3d` and `Surface`).

Numeric idealization: the Python code computes with numpy float32/float64;
the embedding uses exact rationals `ℚ` (and `ℝ` for the one claim about
normalized projection frames), so every constant of the source
(999.9, 10.0, 999.0, 128, ...) is represented exactly and the algorithms
are settled in their idealized real-number reading.

Points are represented after projection: `Surface.get_projected_points`
multiplies the shared cloud by the face's orthonormal projection matrix;
the masking embedding takes the per-face projected coordinates
`(u, v, depth)` as input, index-aligned across faces (one entry per point
of the shared cloud).
-/

/-- `np.fabs` on an exact rational. -/
def fabs (q : ℚ) : ℚ := if q < 0 then -q else q

abbrev Pt3 : Type := ℚ × ℚ × ℚ

/-- One face of the building as seen by the point-assignment code of
`Build3d.make_objfiles`: the projected bounding box `self.boundary`
(minx, miny, maxx, maxy) and the projected point cloud
`surface.get_projected_points()` for this face. -/
structure FaceData where
  minx : ℚ
  miny : ℚ
  maxx : ℚ
  maxy : ℚ
  pts : List Pt3

instance : Inhabited FaceData := ⟨⟨0, 0, 0, 0, []⟩⟩

/-- `Surface.get_distance_matrix(check_bounds=True)`: per point,
`fabs(z) + 999.9` when the in-plane `(x, y)` falls outside the face's
bounding box, else `fabs(z)` (the `outbound_mask * 999.9` term). -/
def get_distance_vector (f : FaceData) : List ℚ :=
  f.pts.map (fun p =>
    fabs p.2.2 +
      (if p.1 < f.minx ∨ p.1 > f.maxx ∨ p.2.1 < f.miny ∨ p.2.1 > f.maxy
       then 999.9 else 0))

/-- numpy `.min()` on a nonempty vector (0 on the empty vector, which the
source never evaluates: it returns early when the vector is empty). -/
def minD : List ℚ → ℚ
  | [] => 0
  | q :: qs => qs.foldl min q

/-- numpy `.max()` on a nonempty vector (0 on the empty vector). -/
def maxD : List ℚ → ℚ
  | [] => 0
  | q :: qs => qs.foldl max q

/-- The lod-1 cap penalty of `make_objfiles`: when `lod == 1` and the face
is the first or last one of the building (`n == 0 or n == len(surfaces)-1`),
999.9 is added to every entry of its distance vector. -/
def lodPenalty (lod : ℤ) (n total : ℕ) (ds : List ℚ) : List ℚ :=
  if lod = 1 ∧ (n = 0 ∨ n = total - 1) then ds.map (fun d => d + 999.9) else ds

/-- The survival loop of `make_objfiles` (source lines 199-221): for face
`n`, compute the distance vector; if it is empty, record `None` in `nkmap`
and continue; otherwise apply the lod-1 penalty, and if the minimum of the
(penalized) vector exceeds 10.0 record `None`, else append the vector as
matrix row `k` and record `k`.  Returns `(list_of_distances, nkmap)`. -/
def buildRowsAux (lod : ℤ) (total : ℕ) :
    ℕ → ℕ → List FaceData → List (List ℚ) × List (Option ℕ)
  | _, _, [] => ([], [])
  | n, k, f :: rest =>
    let ds := get_distance_vector f
    if ds = [] then
      let r := buildRowsAux lod total (n + 1) k rest
      (r.1, none :: r.2)
    else
      let ds1 := lodPenalty lod n total ds
      if 10 < minD ds1 then
        let r := buildRowsAux lod total (n + 1) k rest
        (r.1, none :: r.2)
      else
        let r := buildRowsAux lod total (n + 1) (k + 1) rest
        (ds1 :: r.1, some k :: r.2)

/-- The distance matrix rows and the face-to-row map `nkmap`. -/
def buildRows (lod : ℤ) (faces : List FaceData) :
    List (List ℚ) × List (Option ℕ) :=
  buildRowsAux lod faces.length 0 0 faces

/-- First-wins argmin over a value list (numpy `argmin` tie behavior):
state is (remaining values, best value, best index, next index). -/
def argminGo : List ℚ → ℚ → ℕ → ℕ → ℕ
  | [], _, best, _ => best
  | q :: qs, bv, best, i =>
    if q < bv then argminGo qs q i (i + 1) else argminGo qs bv best (i + 1)

/-- Index of the least value of a list; ties go to the lowest index. -/
def argminList : List ℚ → ℕ
  | [] => 0
  | q :: qs => argminGo qs q 0 1

/-- `nearest_face[j] = np.argmin(distance_matrix, axis=0)[j]`: the row
index minimizing column `j` of the matrix. -/
def nearest_face (rows : List (List ℚ)) (j : ℕ) : ℕ :=
  argminList (rows.map (fun r => r.getD j 0))

/-- The `smart` restriction subset for face `n`: the depths (third
projected coordinate) of the points whose argmin row is face `n`'s row
(`filtered_pcd[:, 2]` where `mask = (nearest_face == k)`).  Empty when the
face has no row (`nkmap[n] is None`; numpy evaluates `nearest_face == None`
elementwise to `False`, and with an empty matrix `nearest_face` is the
scalar `False`, so `mask` selects nothing in those cases too). -/
def smartSubset (lod : ℤ) (faces : List FaceData) (n : ℕ) : List ℚ :=
  let rows := (buildRows lod faces).1
  let f := faces.getD n default
  match (buildRows lod faces).2.getD n none with
  | none => []
  | some k =>
    ((List.range f.pts.length).filter (fun j => nearest_face rows j == k)).map
      (fun j => (f.pts.getD j (0, 0, 0)).2.2)

/-- The `smart` depth window `z_range` of `make_objfiles`:
`(min(-1.0, max(-10.0, z.min())), max(1.0, z.max()))` over the restriction
subset. -/
def smartWindow (lod : ℤ) (faces : List FaceData) (n : ℕ) : ℚ × ℚ :=
  let zs := smartSubset lod faces n
  (min (-1) (max (-10) (minD zs)), max 1 (maxD zs))

/-- The final `smart` mask for face `n` (source lines 259-272): when the
restriction subset is empty the mask is `False` (selects nothing);
otherwise a point is kept iff its depth for this face lies inside the
window: `mask = (z >= z_range[0]) & (z <= z_range[1])`, evaluated over ALL
points `projected_pcd[:, 2]`, without re-intersecting with
`nearest_face == k`. -/
def smartMask (lod : ℤ) (faces : List FaceData) (n : ℕ) : List Bool :=
  let f := faces.getD n default
  if smartSubset lod faces n = [] then
    List.replicate f.pts.length false
  else
    f.pts.map (fun p =>
      decide ((smartWindow lod faces n).1 ≤ p.2.2) &&
        decide (p.2.2 ≤ (smartWindow lod faces n).2))

/-- The `nearest` mask for face `n` (source lines 240-246): `False` when
the face has no row; otherwise point `j` is kept iff row `k` is its argmin
row and `distance_matrix[k, j] < 999.0`. -/
def nearestMask (lod : ℤ) (faces : List FaceData) (n : ℕ) : List Bool :=
  let rows := (buildRows lod faces).1
  let f := faces.getD n default
  match (buildRows lod faces).2.getD n none with
  | none => List.replicate f.pts.length false
  | some k =>
    (List.range f.pts.length).map (fun j =>
      decide (nearest_face rows j = k) &&
        decide ((rows.getD k []).getD j 0 < 999.0))

-- Concrete instance used to settle C1: two parallel faces over the same
-- bounding box; point 0 is nearest to face 0, point 1 to face 1.
def c1faces : List FaceData :=
  [⟨0, 0, 10, 10, [(5, 5, 1/2), (5, 5, 3)]⟩,
   ⟨0, 0, 10, 10, [(5, 5, 9/10), (5, 5, 1/2)]⟩]

/-! ### Linear-scan deduplication (MeshWriter lists)

`make_objfiles` maintains `all_vertices` (one list for the whole building,
lines 161-175) and `vt_list` (one list for the whole building, lines
293-317) with the same idiom:

```
try:
    pos = lst.index(v)
except ValueError:
    pos = len(lst)
    lst.append(v)
```

`pyIndex`, `dedupInsert`, `dedupList`, `dedupFaces` embed that idiom. -/

/-- Python `list.index(v)`: position of the first occurrence (the source
only calls it on members; on a non-member it returns the length-extension
convention is irrelevant because `dedupInsert` guards the call). -/
def pyIndex {α : Type} [DecidableEq α] : List α → α → ℕ
  | [], _ => 0
  | a :: l, v => if a = v then 0 else pyIndex l v + 1

/-- One `try: pos = lst.index(v) / except: append` step: the updated list
and the position recorded for `v`. -/
def dedupInsert {α : Type} [DecidableEq α] (l : List α) (v : α) :
    List α × ℕ :=
  if v ∈ l then (l, pyIndex l v) else (l ++ [v], l.length)

/-- Run the dedup idiom over the elements of one face, threading the
building-wide list; returns the final list and the face's index list. -/
def dedupList {α : Type} [DecidableEq α] (l : List α) :
    List α → List α × List ℕ
  | [] => (l, [])
  | v :: vs =>
    let p := dedupInsert l v
    let r := dedupList p.1 vs
    (r.1, p.2 :: r.2)

/-- Run the dedup idiom over all faces, threading one building-wide list;
returns the final list and the per-face index lists. -/
def dedupFaces {α : Type} [DecidableEq α] (l : List α) :
    List (List α) → List α × List (List ℕ)
  | [] => (l, [])
  | f :: fs =>
    let p := dedupList l f
    let r := dedupFaces p.1 fs
    (r.1, p.2 :: r.2)

/-- The vertex pass of `make_objfiles` (lines 161-175): for each face,
walk `ring[:-1]` (`dropLast` of the closed exterior ring) and dedup into
the single `all_vertices` list, recording per-face positions. -/
def collectVertices (rings : List (List Pt3)) : List Pt3 × List (List ℕ) :=
  dedupFaces [] (rings.map (fun r => r.dropLast))

/-- The vertex indices as printed on the `f v/vt/vn` lines (line 330:
`v + 1`, 1-based). -/
def objFaceIndices (rings : List (List Pt3)) : List (List ℕ) :=
  (collectVertices rings).2.map (fun l => l.map (fun i => i + 1))

/-- Python `round(q, 3)` on an exact value: scale by 1000, round half to
even, scale back. -/
def round3 (q : ℚ) : ℚ :=
  let s := q * 1000
  let f : ℤ := Int.floor s
  let r := s - (f : ℚ)
  let n : ℤ :=
    if r < 1/2 then f
    else if 1/2 < r then f + 1
    else if f % 2 = 0 then f else f + 1
  (n : ℚ) / 1000

/-- A face as seen by the texture-coordinate pass: its projected bounding
box `surface.boundary` and its `surface.projected_vertices` (only the
in-plane `(x, y)` coordinates are read). -/
structure VtFace where
  minx : ℚ
  miny : ℚ
  maxx : ℚ
  maxy : ℚ
  projVerts : List (ℚ × ℚ)

/-- Lines 301-308: `((x - minx)/width, 1.0 - (y - miny)/height)` rounded
to 3 decimals. -/
def texCoord (f : VtFace) (v : ℚ × ℚ) : ℚ × ℚ :=
  (round3 ((v.1 - f.minx) / (f.maxx - f.minx)),
   round3 (1 - (v.2 - f.miny) / (f.maxy - f.miny)))

/-- The per-face texture-coordinate tuples, in face order. -/
def vtCoords (fs : List VtFace) : List (List (ℚ × ℚ)) :=
  fs.map (fun f => f.projVerts.map (texCoord f))

/-- The texture-coordinate pass of `make_objfiles` (lines 293-317):
`vt_list` starts empty once per building and every face's coordinates are
deduped into it; `vt_index` records per-face positions into that single
list. -/
def vtBuild (fs : List VtFace) : List (ℚ × ℚ) × List (List ℕ) :=
  dedupFaces [] (vtCoords fs)

/-! ### `Surface.create_texture_image` (source lines 694-816)

The function is embedded as a pure state transformer: the only file-system
effect the claims mention is which PNG names exist in the output
directory, modeled as the list `fs` of existing base names (`image.save`
creates the name if absent).  Colors are carried along unchanged; the
voxel downsampling of the optional PLY export is embedded for points
(open3d averages colors per voxel the same way, which no claim reads). -/

/-- Input state of one `create_texture_image` call. -/
structure TexInput where
  minx : ℚ
  miny : ℚ
  maxx : ℚ
  maxy : ℚ
  pts : List Pt3
  colors : List Pt3
  mask : List Bool
  imagesize : ℚ
  mingrid : ℚ
  faceNumber : ℕ
  prefixStr : String
  fs : List String

/-- Lines 735-738: `gridsize = max((maxx-minx)/(imagesize-1.0),
(maxy-miny)/(imagesize-1.0), self.build3d.gridsize)`. -/
def gridSize (inp : TexInput) : ℚ :=
  max (max ((inp.maxx - inp.minx) / (inp.imagesize - 1))
        ((inp.maxy - inp.miny) / (inp.imagesize - 1)))
    inp.mingrid

/-- Line 747's bounding-box test on one projected point:
`(x >= minx) & (x <= maxx) & (y >= miny) & (y <= maxy)`. -/
def inBounds (inp : TexInput) (p : Pt3) : Bool :=
  decide (inp.minx ≤ p.1) && decide (p.1 ≤ inp.maxx) &&
    decide (inp.miny ≤ p.2.1) && decide (p.2.1 ≤ inp.maxy)

/-- Line 747: `mask = mask & (x >= minx) & (x <= maxx) & (y >= miny) &
(y <= maxy)`, elementwise over the point indices. -/
def effMask (inp : TexInput) : List Bool :=
  (List.range inp.pts.length).map (fun j =>
    inp.mask.getD j false && inBounds inp (inp.pts.getD j (0, 0, 0)))

/-- The indices selected by the intersected mask (numpy boolean indexing
keeps ascending index order). -/
def filteredIndices (inp : TexInput) : List ℕ :=
  (List.range inp.pts.length).filter (fun j => (effMask inp).getD j false)

/-- `filtered_points = projected_points[mask]`. -/
def filteredPoints (inp : TexInput) : List Pt3 :=
  (filteredIndices inp).map (fun j => inp.pts.getD j (0, 0, 0))

/-- `filtered_colors = np.asarray(pcd.colors)[mask]`. -/
def filteredColors (inp : TexInput) : List Pt3 :=
  (filteredIndices inp).map (fun j => inp.colors.getD j (0, 0, 0))

/-- Componentwise minimum bound of a point list (open3d `GetMinBound`);
(0,0,0) for the empty list, which `voxel_down_sample` never reads. -/
def minBound : List Pt3 → Pt3
  | [] => (0, 0, 0)
  | p :: ps =>
    ps.foldl (fun a b => (min a.1 b.1, min a.2.1 b.2.1, min a.2.2 b.2.2)) p

/-- Voxel key of a point: integer cell of the grid anchored half a voxel
below the cloud's min bound (open3d's `voxel_min_bound`). -/
def voxelKey (vmb : Pt3) (s : ℚ) (p : Pt3) : ℤ × ℤ × ℤ :=
  (Int.floor ((p.1 - vmb.1) / s),
   Int.floor ((p.2.1 - vmb.2.1) / s),
   Int.floor ((p.2.2 - vmb.2.2) / s))

/-- Occupied voxel keys in first-occurrence order (a deterministic
rendering of open3d's hash-map iteration; the claims never depend on the
output order). -/
def firstKeysAux (seen : List (ℤ × ℤ × ℤ)) :
    List (ℤ × ℤ × ℤ) → List (ℤ × ℤ × ℤ)
  | [] => []
  | k :: ks =>
    if k ∈ seen then firstKeysAux seen ks
    else k :: firstKeysAux (seen ++ [k]) ks

/-- Centroid of a nonempty point list ((0,0,0) for the empty list, which
is never taken: every emitted voxel holds at least one point). -/
def centroid (ps : List Pt3) : Pt3 :=
  ((ps.map (fun p => p.1)).foldl (fun a b => a + b) 0 / ps.length,
   (ps.map (fun p => p.2.1)).foldl (fun a b => a + b) 0 / ps.length,
   (ps.map (fun p => p.2.2)).foldl (fun a b => a + b) 0 / ps.length)

/-- open3d `voxel_down_sample(voxel_size)`: one averaged representative
point per occupied voxel of the grid anchored at
`min_bound - voxel_size/2`. -/
def voxel_down_sample (s : ℚ) (pts : List Pt3) : List Pt3 :=
  if pts = [] then []
  else
    let mb := minBound pts
    let vmb : Pt3 := (mb.1 - s / 2, mb.2.1 - s / 2, mb.2.2 - s / 2)
    (firstKeysAux [] (pts.map (voxelKey vmb s))).map (fun kk =>
      centroid (pts.filter (fun p => voxelKey vmb s p = kk)))

/-- Zero-pad a face number to 3 digits (`'{:03d}'.format(n)`). -/
def pad3 (n : ℕ) : String :=
  if n < 10 then "00" ++ toString n
  else if n < 100 then "0" ++ toString n
  else toString n

/-- Observable result of one `create_texture_image` call. -/
structure TexResult where
  imageName : String
  fsOut : List String
  placeholderRGB : Option (ℕ × ℕ × ℕ)
  plyPoints : List Pt3
  rasterXY : List (ℚ × ℚ)

/-- `Surface.create_texture_image` (lines 727-816).  Empty intersected
mask (line 748 `if not np.any(mask)`): build the gray `(128,128,128)`
placeholder, write `no_texture.png` only when it does not already exist,
and return its base name.  Otherwise: select the masked points/colors,
voxel-downsample them into the (optional) PLY cloud `new_pcd` when
`gridsize > self.build3d.gridsize * 2.0`, and rasterize from
`xyarray = filtered_points[:, 0:2]` (the pre-downsampling array), saving
`'{prefix}_{face:03d}.png'`. -/
def create_texture_image (inp : TexInput) : TexResult :=
  if (effMask inp).any id then
    let fp := filteredPoints inp
    let name := inp.prefixStr ++ "_" ++ pad3 inp.faceNumber ++ ".png"
    { imageName := name
      fsOut := if name ∈ inp.fs then inp.fs else inp.fs ++ [name]
      placeholderRGB := none
      plyPoints :=
        if gridSize inp > inp.mingrid * 2 then
          voxel_down_sample (gridSize inp) fp
        else fp
      rasterXY := fp.map (fun p => (p.1, p.2.1)) }
  else
    { imageName := "no_texture.png"
      fsOut :=
        if "no_texture.png" ∈ inp.fs then inp.fs
        else inp.fs ++ ["no_texture.png"]
      placeholderRGB := some (128, 128, 128)
      plyPoints := []
      rasterXY := [] }

/-- The same input with the file list replaced (a later call against the
same output directory). -/
def withFs (inp : TexInput) (fs : List String) : TexInput :=
  { inp with fs := fs }

/-- Squared planar distance used by the `cKDTree`/`griddata('nearest')`
cell lookup. -/
def sqDist (a b : ℚ × ℚ) : ℚ :=
  (a.1 - b.1) * (a.1 - b.1) + (a.2 - b.2) * (a.2 - b.2)

/-- First-wins argmin over a list of point indices by a cost function. -/
def argminIdxGo (f : ℕ → ℚ) : List ℕ → ℕ → ℚ → ℕ
  | [], best, _ => best
  | j :: js, best, bv =>
    if f j < bv then argminIdxGo f js j (f j) else argminIdxGo f js best bv

/-- The sample point coloring the raster cell centered at `c`: the
`griddata(xyarray, ..., method='nearest')` lookup, as the index (into the
original cloud) of the filtered point nearest to `c`; `none` when the
filtered set is empty (the source never rasterizes in that case). -/
def cellSource (inp : TexInput) (c : ℚ × ℚ) : Option ℕ :=
  match filteredIndices inp with
  | [] => none
  | j :: js =>
    some (argminIdxGo
      (fun i => sqDist c ((inp.pts.getD i (0, 0, 0)).1,
        (inp.pts.getD i (0, 0, 0)).2.1))
      js j
      (sqDist c ((inp.pts.getD j (0, 0, 0)).1,
        (inp.pts.getD j (0, 0, 0)).2.1)))

/-! ### `Surface.calc_basic_metrics` (source lines 598-640)

The projection-frame construction, over `ℝ` (normalization divides by a
Euclidean norm, which is not rational).  `verts` is the open ring
`ring[:-1]` of the face. -/

/-- A 3-vector over `ℝ`. -/
@[ext]
structure V3 where
  x : ℝ
  y : ℝ
  z : ℝ

noncomputable section

/-- The zero vector. -/
def V3.zero : V3 := ⟨0, 0, 0⟩

/-- Componentwise subtraction. -/
def V3.sub (a b : V3) : V3 := ⟨a.x - b.x, a.y - b.y, a.z - b.z⟩

/-- Dot product. -/
def V3.dot (a b : V3) : ℝ := a.x * b.x + a.y * b.y + a.z * b.z

/-- Cross product (`np.cross`). -/
def V3.cross (a b : V3) : V3 :=
  ⟨a.y * b.z - a.z * b.y, a.z * b.x - a.x * b.z, a.x * b.y - a.y * b.x⟩

/-- Euclidean norm (`np.linalg.norm`). -/
def V3.norm (a : V3) : ℝ := Real.sqrt (a.dot a)

/-- `v / np.linalg.norm(v)`. -/
def V3.normalize (a : V3) : V3 := ⟨a.x / a.norm, a.y / a.norm, a.z / a.norm⟩

/-- `origin = vertices[0]` (the face's first ring vertex). -/
def faceOrigin (verts : List V3) : V3 := verts.headD V3.zero

/-- `vertices = vertices - origin` (line 606). -/
def shiftedVerts (verts : List V3) : List V3 :=
  verts.map (fun v => v.sub (faceOrigin verts))

/-- `v0 = vertices[1] - vertices[0]` (the base line, line 608). -/
def edge0 (verts : List V3) : V3 :=
  ((shiftedVerts verts).getD 1 V3.zero).sub
    ((shiftedVerts verts).getD 0 V3.zero)

/-- `v1 = vertices[-1] - vertices[0]` (the closing edge, line 609). -/
def edgeLast (verts : List V3) : V3 :=
  ((shiftedVerts verts).getLastD V3.zero).sub
    ((shiftedVerts verts).getD 0 V3.zero)

/-- `v2 = np.cross(v0, v1)` (the raw, non-unit face normal, line 613). -/
def rawNormal (verts : List V3) : V3 := (edge0 verts).cross (edgeLast verts)

/-- `v1 = np.cross(v2, v0)` (the recomputed in-plane vector, line 618). -/
def rawInPlane (verts : List V3) : V3 := (rawNormal verts).cross (edge0 verts)

/-- `u0 = v0 / np.linalg.norm(v0)`: column 0 of `projection_matrix`. -/
def projCol0 (verts : List V3) : V3 := (edge0 verts).normalize

/-- `u1 = v1 / np.linalg.norm(v1)`: column 1 of `projection_matrix`. -/
def projCol1 (verts : List V3) : V3 := (rawInPlane verts).normalize

/-- `u2 = v2 / np.linalg.norm(v2)`: column 2 of `projection_matrix`. -/
def projCol2 (verts : List V3) : V3 := (rawNormal verts).normalize

end

/-! ### Concrete instances used by the witnesses and counterexamples -/

-- C3: three faces, lod 1; face 0 has a point at unpenalized distance 1/2.
def c3faces : List FaceData :=
  [⟨0, 0, 10, 10, [(5, 5, 1/2)]⟩,
   ⟨0, 0, 10, 10, [(5, 5, 2)]⟩,
   ⟨0, 0, 10, 10, [(5, 5, 4)]⟩]

-- C5: one face (lod 2, no penalty); point 1 is in-bounds at depth 999.5,
-- below the 999.9 sentinel but not below the code's 999.0 cutoff.
def c5faces : List FaceData :=
  [⟨0, 0, 10, 10, [(5, 5, 1/10), (5, 5, 1999/2)]⟩]

-- C2: two identical unit-square faces; their texture coordinates agree
-- pairwise.
def c2faces : List VtFace :=
  [⟨0, 0, 1, 1, [(0, 0), (1, 0), (1, 1), (0, 1)]⟩,
   ⟨0, 0, 1, 1, [(0, 0), (1, 0), (1, 1), (0, 1)]⟩]

-- C8: two unit-square rings (closing vertex repeated) sharing the edge
-- from (1,0,0) to (1,0,1).
def c8rings : List (List Pt3) :=
  [[(0, 0, 0), (1, 0, 0), (1, 0, 1), (0, 0, 1), (0, 0, 0)],
   [(1, 0, 0), (1, 1, 0), (1, 1, 1), (1, 0, 1), (1, 0, 0)]]

-- C4: grid size 10 exceeds twice the min grid 1; the two masked points
-- fall into one voxel, so the downsampled cloud is their single centroid.
def c4inp : TexInput :=
  { minx := 0, miny := 0, maxx := 10, maxy := 10
    pts := [(1, 1, 0), (1, 2, 0)]
    colors := [(1, 0, 0), (1, 0, 0)]
    mask := [true, true]
    imagesize := 2, mingrid := 1
    faceNumber := 0, prefixStr := "bld", fs := [] }

-- C7: the only point projects far outside the bounding box, so the
-- intersected mask is empty.
def c7inp : TexInput :=
  { minx := 0, miny := 0, maxx := 10, maxy := 10
    pts := [(50, 50, 0)]
    colors := [(1, 0, 0)]
    mask := [true]
    imagesize := 4, mingrid := 1/100
    faceNumber := 3, prefixStr := "bld7", fs := [] }

-- C10: point 0 is in bounds, point 1 is masked in but far out of bounds.
def c10inp : TexInput :=
  { minx := 0, miny := 0, maxx := 10, maxy := 10
    pts := [(1, 1, 5), (100, 100, 0)]
    colors := [(1, 0, 0), (0, 1, 0)]
    mask := [true, true]
    imagesize := 4, mingrid := 1/100
    faceNumber := 1, prefixStr := "bldX", fs := [] }

-- C9: an arbitrary fixed input (C9's theorem is universally quantified
-- and hypothesis-free; no witness is required).

-- C6: an axis-aligned unit square face (open ring).
noncomputable def c6verts : List V3 :=
  [⟨0, 0, 0⟩, ⟨1, 0, 0⟩, ⟨1, 1, 0⟩, ⟨0, 1, 0⟩]

/-! ### Theorems -/

/-- Concrete evaluation of the C1 instance's survival loop. -/
theorem c1_rows : buildRows 2 c1faces =
    ([[1/2, 3], [9/10, 1/2]], [some 0, some 1]) := by
  norm_num [buildRows, buildRowsAux, get_distance_vector, lodPenalty, minD,
    fabs, c1faces, List.cons_ne_nil]

/-- Concrete evaluation of the C1 instance's `smart` restriction subset
for face 1: only point 1 (depth 1/2) has face 1 as its nearest row. -/
theorem c1_subset : smartSubset 2 c1faces 1 = [1/2] := by
  simp only [smartSubset, c1_rows]
  norm_num [nearest_face, argminList, argminGo, c1faces,
    List.range_succ, List.filter_append, List.filter_cons, List.filter_nil]

/-- Concrete evaluation of the C1 instance's depth window for face 1. -/
theorem c1_window : smartWindow 2 c1faces 1 = (-1, 1) := by
  simp only [smartWindow, c1_subset]
  norm_num [minD, maxD]

/-- Concrete evaluation of the C1 instance's final `smart` mask for
face 1: both points pass the depth window, including point 0, whose
nearest row is face 0's. -/
theorem c1_mask : smartMask 2 c1faces 1 = [true, true] := by
  simp only [smartMask, c1_subset, c1_window]
  norm_num [c1faces, List.cons_ne_nil]

/-- C1 is false of the code: under the `smart` policy, face 1 has a
non-empty restriction subset, point 0's nearest face is face 0 (row 0),
its depth 9/10 for face 1 lies in face 1's window, and it IS included in
face 1's final mask — the final mask is the bare depth-window test and
never re-applies the nearest-face condition. -/
theorem c1_counterexample :
    smartSubset 2 c1faces 1 ≠ [] ∧
    (buildRows 2 c1faces).2.getD 0 none = some 0 ∧
    (buildRows 2 c1faces).2.getD 1 none = some 1 ∧
    nearest_face (buildRows 2 c1faces).1 0 = 0 ∧
    (smartMask 2 c1faces 1).getD 0 false = true := by
  refine ⟨?_, ?_, ?_, ?_, ?_⟩
  · simp [c1_subset, List.cons_ne_nil]
  · rw [c1_rows]
    rfl
  · rw [c1_rows]
    rfl
  · rw [c1_rows]
    norm_num [nearest_face, argminList, argminGo]
  · rw [c1_mask]
    rfl

/-- C1 (amended): under the `smart` policy, for every face `n` with a
non-empty restriction subset (the points whose nearest row is face `n`'s),
a point is included in face `n`'s final mask iff its depth for face `n`
lies in the window `[clamp(min(depth), -10, -1), max(1, max(depth))]`
computed from that subset — with no nearest-face condition on the final
mask, so points nearest to other faces may be included. -/
theorem smartMask_eq_depth_window_test (lod : ℤ) (faces : List FaceData)
    (n j : ℕ) (p : Pt3)
    (hne : smartSubset lod faces n ≠ [])
    (hj : (faces.getD n default).pts[j]? = some p) :
    (smartMask lod faces n)[j]? =
      some (decide ((smartWindow lod faces n).1 ≤ p.2.2) &&
        decide (p.2.2 ≤ (smartWindow lod faces n).2)) := by
  unfold smartMask
  rw [if_neg hne, List.getElem?_map, hj]
  rfl

/-- Witness for the amended C1 at the concrete instance: face 1's window
is evaluated on point 0. -/
theorem smartMask_eq_depth_window_test_witness :
    (smartMask 2 c1faces 1)[0]? =
      some (decide ((smartWindow 2 c1faces 1).1 ≤ (9/10 : ℚ)) &&
        decide ((9/10 : ℚ) ≤ (smartWindow 2 c1faces 1).2)) :=
  smartMask_eq_depth_window_test 2 c1faces 1 0 (5, 5, 9/10)
    (by simp [c1_subset, List.cons_ne_nil]) rfl

/-- Lower bound of a min-fold from a lower bound on seed and elements. -/
theorem le_foldl_min (c : ℚ) :
    ∀ (qs : List ℚ) (a : ℚ), c ≤ a → (∀ d ∈ qs, c ≤ d) →
      c ≤ List.foldl min a qs
  | [], _, ha, _ => ha
  | q :: qs, a, ha, hqs => by
    simp only [List.foldl_cons]
    exact le_foldl_min c qs (min a q) (le_min ha (hqs q (by simp)))
      (fun d hd => hqs d (by simp [hd]))

/-- `c ≤ minD ds` when `c` bounds every element of the nonempty `ds`. -/
theorem le_minD (c : ℚ) (ds : List ℚ) (h : ∀ d ∈ ds, c ≤ d)
    (hne : ds ≠ []) : c ≤ minD ds := by
  match ds, hne with
  | q :: qs, _ =>
    simp only [minD]
    exact le_foldl_min c qs q (h q (by simp)) (fun d hd => h d (by simp [hd]))

/-- A min-fold commutes with adding a constant to seed and elements. -/
theorem foldl_min_map_add (c : ℚ) :
    ∀ (qs : List ℚ) (a : ℚ),
      List.foldl min (a + c) (qs.map (fun d => d + c)) =
        List.foldl min a qs + c
  | [], _ => rfl
  | q :: qs, a => by
    simp only [List.map_cons, List.foldl_cons, min_add_add_right]
    exact foldl_min_map_add c qs (min a q)

/-- The minimum of a uniformly shifted nonempty vector. -/
theorem minD_map_add (c : ℚ) (ds : List ℚ) (hne : ds ≠ []) :
    minD (ds.map (fun d => d + c)) = minD ds + c := by
  match ds, hne with
  | q :: qs, _ =>
    simp only [List.map_cons, minD]
    exact foldl_min_map_add c qs q

/-- Every entry of a distance vector is nonnegative. -/
theorem get_distance_vector_nonneg (f : FaceData) :
    ∀ d ∈ get_distance_vector f, 0 ≤ d := by
  intro d hd
  simp only [get_distance_vector, List.mem_map] at hd
  obtain ⟨p, _, rfl⟩ := hd
  have h1 : 0 ≤ fabs p.2.2 := by unfold fabs; split <;> linarith
  have h2 : (0 : ℚ) ≤
      (if p.1 < f.minx ∨ p.1 > f.maxx ∨ p.2.1 < f.miny ∨ p.2.1 > f.maxy
       then 999.9 else 0) := by
    split <;> norm_num
  linarith

/-- Face `n`'s `nkmap` entry is `None` exactly when its distance vector is
empty or the penalized minimum exceeds 10.0 (generalized over the loop
state: `i` is the absolute index of the first remaining face). -/
theorem buildRowsAux_nkmap_getD (lod : ℤ) (total : ℕ) :
    ∀ (fs : List FaceData) (i k n : ℕ), n < fs.length →
      ((buildRowsAux lod total i k fs).2.getD n none = none ↔
        (get_distance_vector (fs.getD n default) = [] ∨
          10 < minD (lodPenalty lod (i + n) total
            (get_distance_vector (fs.getD n default))))) := by
  intro fs
  induction fs with
  | nil => intro i k n h; exact absurd h (by simp)
  | cons f rest ih =>
    intro i k n hn
    match n with
    | 0 =>
      simp only [buildRowsAux]
      by_cases hds : get_distance_vector f = []
      · rw [if_pos hds]
        simp [hds]
      · rw [if_neg hds]
        by_cases hmin :
            10 < minD (lodPenalty lod i total (get_distance_vector f))
        · rw [if_pos hmin]
          simp only [List.getD_cons_zero, List.getD_cons_succ,
            Nat.add_zero]
          simp [hds, hmin]
        · rw [if_neg hmin]
          simp only [List.getD_cons_zero, List.getD_cons_succ,
            Nat.add_zero]
          simp [hds, hmin]
    | m + 1 =>
      have hm : m < rest.length := Nat.lt_of_succ_lt_succ hn
      have harith : (i + 1) + m = i + (m + 1) := by omega
      simp only [buildRowsAux]
      by_cases hds : get_distance_vector f = []
      · rw [if_pos hds]
        simpa [harith] using ih (i + 1) k m hm
      · rw [if_neg hds]
        by_cases hmin :
            10 < minD (lodPenalty lod i total (get_distance_vector f))
        · rw [if_pos hmin]
          simpa [harith] using ih (i + 1) k m hm
        · rw [if_neg hmin]
          simpa [harith] using ih (i + 1) (k + 1) m hm

/-- C3 is false of the code: in a lod-1 job, face 0 has a point whose
unpenalized distance value 1/2 is at most 10.0, yet face 0 keeps no row in
the matrix (`nkmap[0] = None`): the 999.9 penalty is added before the
`min > 10.0` exclusion check, so lod-1 first/last faces are always
excluded, and the penalty is applied by position among all faces, not
among surviving ones. -/
theorem c3_counterexample :
    get_distance_vector (c3faces.getD 0 default) = [1/2] ∧
    minD (get_distance_vector (c3faces.getD 0 default)) ≤ 10 ∧
    buildRows 1 c3faces = ([[2]], [none, some 0, none]) := by
  refine ⟨?_, ?_, ?_⟩
  · norm_num [c3faces, get_distance_vector, fabs]
  · norm_num [c3faces, get_distance_vector, fabs, minD]
  · norm_num [buildRows, buildRowsAux, get_distance_vector, lodPenalty,
      minD, fabs, c3faces, List.cons_ne_nil]

/-- C3 (amended): a face is excluded from the distance matrix (its
`nkmap` entry is `None`) exactly when its distance vector is empty or the
minimum of the vector taken AFTER the lod-1 penalty (999.9 added to the
first and last faces by position among all faces) exceeds 10.0; hence in a
lod-1 job the first and last faces with a nonempty distance vector are
always excluded. -/
theorem face_excluded_iff_penalized_min (lod : ℤ) (faces : List FaceData)
    (n : ℕ) (hn : n < faces.length) :
    ((buildRows lod faces).2.getD n none = none ↔
      (get_distance_vector (faces.getD n default) = [] ∨
        10 < minD (lodPenalty lod n faces.length
          (get_distance_vector (faces.getD n default))))) ∧
    (lod = 1 → (n = 0 ∨ n = faces.length - 1) →
      get_distance_vector (faces.getD n default) ≠ [] →
      (buildRows lod faces).2.getD n none = none) := by
  have base := buildRowsAux_nkmap_getD lod faces.length faces 0 0 n hn
  simp only [Nat.zero_add] at base
  refine ⟨base, ?_⟩
  intro h1 hpos hds
  rw [buildRows, base]
  right
  rw [lodPenalty, if_pos ⟨h1, hpos⟩, minD_map_add _ _ hds]
  have h0 : (0 : ℚ) ≤ minD (get_distance_vector (faces.getD n default)) :=
    le_minD 0 _ (get_distance_vector_nonneg _) hds
  linarith [h0]

/-- Witness for the amended C3 at the concrete lod-1 instance, face 0. -/
theorem face_excluded_iff_penalized_min_witness :
    (((buildRows 1 c3faces).2.getD 0 none = none ↔
      (get_distance_vector (c3faces.getD 0 default) = [] ∨
        10 < minD (lodPenalty 1 0 c3faces.length
          (get_distance_vector (c3faces.getD 0 default))))) ∧
    ((1 : ℤ) = 1 → (0 = 0 ∨ 0 = c3faces.length - 1) →
      get_distance_vector (c3faces.getD 0 default) ≠ [] →
      (buildRows 1 c3faces).2.getD 0 none = none)) :=
  face_excluded_iff_penalized_min 1 c3faces 0 (by decide)

/-- Concrete evaluation of the C5 instance's survival loop. -/
theorem c5_rows : buildRows 2 c5faces = ([[1/10, 1999/2]], [some 0]) := by
  norm_num [buildRows, buildRowsAux, get_distance_vector, lodPenalty, minD,
    fabs, c5faces, List.cons_ne_nil]

/-- Concrete evaluation of the C5 instance's `nearest` mask. -/
theorem c5_mask : nearestMask 2 c5faces 0 = [true, false] := by
  simp only [nearestMask, c5_rows]
  norm_num [nearest_face, argminList, argminGo, c5faces, List.range_succ]

/-- C5 is false of the code: under the `nearest` policy, face 0 survives
(row 0), point 1's argmin row is 0 and its distance value 1999/2 = 999.5
is below the 999.9 sentinel, yet point 1 is NOT in face 0's mask — the
code's cutoff is `< 999.0`, not the 999.9 sentinel. -/
theorem c5_counterexample :
    (buildRows 2 c5faces).2.getD 0 none = some 0 ∧
    nearest_face (buildRows 2 c5faces).1 1 = 0 ∧
    ((buildRows 2 c5faces).1.getD 0 []).getD 1 0 = 1999/2 ∧
    (1999/2 : ℚ) < 999.9 ∧
    (nearestMask 2 c5faces 0).getD 1 false = false := by
  refine ⟨?_, ?_, ?_, ?_, ?_⟩
  · rw [c5_rows]
    rfl
  · rw [c5_rows]
    norm_num [nearest_face, argminList, argminGo]
  · rw [c5_rows]
    rfl
  · norm_num
  · rw [c5_mask]
    rfl

/-- C5 (amended): under the `nearest` policy, for every surviving face
`n` (with matrix row `k`), point `j` is included in the mask iff row `k`
is `j`'s argmin row AND `j`'s distance value in row `k` is strictly below
999.0 (not the 999.9 sentinel). -/
theorem nearestMask_iff_argmin_below_999 (lod : ℤ) (faces : List FaceData)
    (n j k : ℕ)
    (hk : (buildRows lod faces).2.getD n none = some k)
    (hj : j < (faces.getD n default).pts.length) :
    (nearestMask lod faces n)[j]? =
      some (decide (nearest_face (buildRows lod faces).1 j = k) &&
        decide (((buildRows lod faces).1.getD k []).getD j 0 < 999.0)) := by
  unfold nearestMask
  rw [hk]
  rw [List.getElem?_map, List.getElem?_range hj]
  rfl

/-- Witness for the amended C5 at the concrete instance, face 0, point 1. -/
theorem nearestMask_iff_argmin_below_999_witness :
    (nearestMask 2 c5faces 0)[1]? =
      some (decide (nearest_face (buildRows 2 c5faces).1 1 = 0) &&
        decide (((buildRows 2 c5faces).1.getD 0 []).getD 1 0 < 999.0)) :=
  nearestMask_iff_argmin_below_999 2 c5faces 0 1 0
    (by rw [c5_rows]; rfl) (by decide)

/-- The first-occurrence position of a member is unchanged by appending. -/
theorem pyIndex_append {α : Type} [DecidableEq α] (t : List α) (v : α) :
    ∀ l : List α, v ∈ l → pyIndex (l ++ t) v = pyIndex l v
  | [], h => absurd h (by simp)
  | a :: l, h => by
    simp only [List.cons_append, pyIndex, List.append_eq]
    by_cases hav : a = v
    · simp [hav]
    · have hv : v ∈ l := by
        rcases List.mem_cons.mp h with h1 | h1
        · exact absurd h1.symm hav
        · exact h1
      rw [if_neg hav, if_neg hav, pyIndex_append t v l hv]

/-- The first-occurrence position of a fresh element appended after `l`
is `l.length`. -/
theorem pyIndex_append_self {α : Type} [DecidableEq α] (t : List α)
    (v : α) : ∀ l : List α, v ∉ l → pyIndex (l ++ v :: t) v = l.length
  | [], _ => by simp [pyIndex]
  | a :: l, h => by
    have hav : ¬(a = v) := fun he => h (by simp [he])
    simp only [List.cons_append, pyIndex, if_neg hav, List.length_cons,
      List.append_eq]
    rw [pyIndex_append_self t v l (fun hv => h (by simp [hv]))]

/-- The dedup pass only appends to the threaded list. -/
theorem dedupList_extends {α : Type} [DecidableEq α] :
    ∀ (vs l : List α), ∃ t, (dedupList l vs).1 = l ++ t
  | [], l => ⟨[], by simp [dedupList]⟩
  | v :: vs, l => by
    by_cases hv : v ∈ l
    · obtain ⟨t, ht⟩ := dedupList_extends vs l
      exact ⟨t, by simp [dedupList, dedupInsert, hv, ht]⟩
    · obtain ⟨t, ht⟩ := dedupList_extends vs (l ++ [v])
      exact ⟨[v] ++ t, by simp [dedupList, dedupInsert, hv, ht]⟩

/-- The whole-building dedup pass only appends to the threaded list. -/
theorem dedupFaces_extends {α : Type} [DecidableEq α] :
    ∀ (fs : List (List α)) (l : List α), ∃ t, (dedupFaces l fs).1 = l ++ t
  | [], l => ⟨[], by simp [dedupFaces]⟩
  | f :: fs, l => by
    obtain ⟨t1, ht1⟩ := dedupList_extends f l
    obtain ⟨t2, ht2⟩ := dedupFaces_extends fs (dedupList l f).1
    refine ⟨t1 ++ t2, ?_⟩
    simp only [dedupFaces]
    rw [ht2, ht1, List.append_assoc]

/-- Every processed element receives the position of its first occurrence
in the final deduplicated list. -/
theorem dedupList_correct {α : Type} [DecidableEq α] :
    ∀ (vs l : List α) (a : ℕ) (v : α), vs[a]? = some v →
      v ∈ (dedupList l vs).1 ∧
        (dedupList l vs).2[a]? = some (pyIndex (dedupList l vs).1 v)
  | [], _, a, v, h => by simp at h
  | w :: vs, l, 0, v, h => by
    have hwv : w = v := by simpa using h
    subst hwv
    by_cases hw : w ∈ l
    · obtain ⟨t, ht⟩ := dedupList_extends vs l
      simp only [dedupList, dedupInsert, if_pos hw]
      constructor
      · rw [ht]
        exact List.mem_append_left t hw
      · rw [ht, List.getElem?_cons_zero, pyIndex_append t w l hw]
    · obtain ⟨t, ht⟩ := dedupList_extends vs (l ++ [w])
      have ht' : (dedupList (l ++ [w]) vs).1 = l ++ w :: t := by
        rw [ht, List.append_assoc]
        rfl
      simp only [dedupList, dedupInsert, if_neg hw]
      constructor
      · rw [ht']
        exact List.mem_append_right l (by simp)
      · rw [ht', List.getElem?_cons_zero, pyIndex_append_self t w l hw]
  | w :: vs, l, a + 1, v, h => by
    have h' : vs[a]? = some v := by simpa using h
    by_cases hw : w ∈ l
    · have r := dedupList_correct vs l a v h'
      simpa [dedupList, dedupInsert, if_pos hw] using r
    · have r := dedupList_correct vs (l ++ [w]) a v h'
      simpa [dedupList, dedupInsert, if_neg hw] using r

/-- Every element of face `i`, position `a`, receives the position of its
first occurrence in the final building-wide deduplicated list. -/
theorem dedupFaces_correct {α : Type} [DecidableEq α] :
    ∀ (fs : List (List α)) (l : List α) (i a : ℕ) (v : α),
      (fs.getD i [])[a]? = some v →
      v ∈ (dedupFaces l fs).1 ∧
        ((dedupFaces l fs).2.getD i [])[a]? =
          some (pyIndex (dedupFaces l fs).1 v)
  | [], _, i, a, v, h => by simp at h
  | f :: fs, l, 0, a, v, h => by
    have h0 : f[a]? = some v := by simpa using h
    obtain ⟨hmem, hidx⟩ := dedupList_correct f l a v h0
    obtain ⟨t, ht⟩ := dedupFaces_extends fs (dedupList l f).1
    simp only [dedupFaces, List.getD_cons_zero]
    rw [ht]
    refine ⟨List.mem_append_left t hmem, ?_⟩
    rw [pyIndex_append t v _ hmem]
    exact hidx
  | f :: fs, l, i + 1, a, v, h => by
    have h' : (fs.getD i [])[a]? = some v := by simpa using h
    have r := dedupFaces_correct fs (dedupList l f).1 i a v h'
    simpa [dedupFaces] using r

/-- The dedup pass preserves freedom from duplicates. -/
theorem dedupList_nodup {α : Type} [DecidableEq α] :
    ∀ (vs l : List α), l.Nodup → (dedupList l vs).1.Nodup
  | [], _, h => h
  | v :: vs, l, h => by
    by_cases hv : v ∈ l
    · simpa [dedupList, dedupInsert, hv] using dedupList_nodup vs l h
    · have h' : (l ++ [v]).Nodup := by
        simp [List.nodup_append, h, hv]
      simpa [dedupList, dedupInsert, hv] using
        dedupList_nodup vs (l ++ [v]) h'

/-- The whole-building dedup pass preserves freedom from duplicates. -/
theorem dedupFaces_nodup {α : Type} [DecidableEq α] :
    ∀ (fs : List (List α)) (l : List α), l.Nodup →
      (dedupFaces l fs).1.Nodup
  | [], _, h => h
  | f :: fs, l, h => by
    simpa [dedupFaces] using
      dedupFaces_nodup fs (dedupList l f).1 (dedupList_nodup f l h)

/-- `getD` with the empty-list default commutes with mapping a
list-valued function. -/
theorem getD_map_map {α β : Type} (g : α → β) (L : List (List α))
    (i : ℕ) :
    (L.map (fun l => l.map g)).getD i [] = (L.getD i []).map g := by
  rw [List.getD_eq_getElem?_getD, List.getD_eq_getElem?_getD,
    List.getElem?_map]
  cases L[i]? <;> rfl

/-- C8: vertices with exactly equal 3D coordinates in any two faces (e.g.
the endpoints of a shared edge) are emitted with the same 1-based index
into the single building-wide exact-equality-deduplicated vertex list, and
that list holds no duplicates. -/
theorem shared_vertices_same_index (rings : List (List Pt3))
    (i a j b : ℕ) (v : Pt3)
    (hia : ((rings.map (fun r => r.dropLast)).getD i [])[a]? = some v)
    (hjb : ((rings.map (fun r => r.dropLast)).getD j [])[b]? = some v) :
    ((objFaceIndices rings).getD i [])[a]? =
      some (pyIndex (collectVertices rings).1 v + 1) ∧
    ((objFaceIndices rings).getD j [])[b]? =
      some (pyIndex (collectVertices rings).1 v + 1) ∧
    ((objFaceIndices rings).getD i [])[a]? =
      ((objFaceIndices rings).getD j [])[b]? ∧
    (collectVertices rings).1.Nodup := by
  have hi := dedupFaces_correct (rings.map (fun r => r.dropLast)) [] i a v hia
  have hj := dedupFaces_correct (rings.map (fun r => r.dropLast)) [] j b v hjb
  have hoi : ((objFaceIndices rings).getD i [])[a]? =
      some (pyIndex (collectVertices rings).1 v + 1) := by
    rw [objFaceIndices, getD_map_map, List.getElem?_map]
    rw [show (collectVertices rings).2 =
      (dedupFaces [] (rings.map (fun r => r.dropLast))).2 from rfl]
    rw [hi.2]
    rfl
  have hoj : ((objFaceIndices rings).getD j [])[b]? =
      some (pyIndex (collectVertices rings).1 v + 1) := by
    rw [objFaceIndices, getD_map_map, List.getElem?_map]
    rw [show (collectVertices rings).2 =
      (dedupFaces [] (rings.map (fun r => r.dropLast))).2 from rfl]
    rw [hj.2]
    rfl
  exact ⟨hoi, hoj, hoi.trans hoj.symm,
    dedupFaces_nodup _ [] List.nodup_nil⟩

/-- Witness for C8 at the two shared-edge squares: ring 0's vertex 1 and
ring 1's vertex 0 are both `(1,0,0)` and receive the same 1-based index. -/
theorem shared_vertices_same_index_witness :
    ((objFaceIndices c8rings).getD 0 [])[1]? =
      some (pyIndex (collectVertices c8rings).1 (1, 0, 0) + 1) ∧
    ((objFaceIndices c8rings).getD 1 [])[0]? =
      some (pyIndex (collectVertices c8rings).1 (1, 0, 0) + 1) ∧
    ((objFaceIndices c8rings).getD 0 [])[1]? =
      ((objFaceIndices c8rings).getD 1 [])[0]? ∧
    (collectVertices c8rings).1.Nodup :=
  shared_vertices_same_index c8rings 0 1 1 0 (1, 0, 0) rfl rfl

/-- Concrete evaluation of the C2 instance's texture coordinates: the two
identical faces produce identical coordinate tuples. -/
theorem c2_coords : vtCoords c2faces =
    [[(0, 1), (1, 1), (1, 0), (0, 0)],
     [(0, 1), (1, 1), (1, 0), (0, 0)]] := by
  norm_num [vtCoords, texCoord, round3, c2faces]

/-- Concrete evaluation of the C2 instance's `vt_list`/`vt_index` pass:
face 1's coordinates are found in the list already built by face 0. -/
theorem c2_build : vtBuild c2faces =
    ([(0, 1), (1, 1), (1, 0), (0, 0)], [[0, 1, 2, 3], [0, 1, 2, 3]]) := by
  rw [vtBuild, c2_coords]
  decide

/-- C2 is false of the code: the two faces of the instance carry equal
texture coordinates, yet the pass produces one building-wide list with 4
entries (not two per-face lists of 4), and face 1's index list repeats
face 0's — equal coordinates in different faces share a single entry in
the single `vt_list`. -/
theorem c2_counterexample :
    (vtBuild c2faces).1.length = 4 ∧
    (vtBuild c2faces).2 = [[0, 1, 2, 3], [0, 1, 2, 3]] := by
  rw [c2_build]
  exact ⟨rfl, rfl⟩

/-- C2 (amended): texture-coordinate deduplication is building-wide, not
per-face: there is a single `vt_list` per building, and two equal
(rounded) texture coordinates — in the same face or in different faces —
receive the same index, the position of their first occurrence in that
single duplicate-free list. -/
theorem vt_equal_coords_same_index (fs : List VtFace) (i a j b : ℕ)
    (c : ℚ × ℚ)
    (hia : ((vtCoords fs).getD i [])[a]? = some c)
    (hjb : ((vtCoords fs).getD j [])[b]? = some c) :
    ((vtBuild fs).2.getD i [])[a]? = some (pyIndex (vtBuild fs).1 c) ∧
    ((vtBuild fs).2.getD j [])[b]? = some (pyIndex (vtBuild fs).1 c) ∧
    ((vtBuild fs).2.getD i [])[a]? = ((vtBuild fs).2.getD j [])[b]? ∧
    (vtBuild fs).1.Nodup := by
  have hi := dedupFaces_correct (vtCoords fs) [] i a c hia
  have hj := dedupFaces_correct (vtCoords fs) [] j b c hjb
  exact ⟨hi.2, hj.2, hi.2.trans hj.2.symm,
    dedupFaces_nodup _ [] List.nodup_nil⟩

/-- Witness for the amended C2: coordinate (0,1) of face 0, position 0,
and of face 1, position 0, share index 0 of the single list. -/
theorem vt_equal_coords_same_index_witness :
    ((vtBuild c2faces).2.getD 0 [])[0]? =
      some (pyIndex (vtBuild c2faces).1 (0, 1)) ∧
    ((vtBuild c2faces).2.getD 1 [])[0]? =
      some (pyIndex (vtBuild c2faces).1 (0, 1)) ∧
    ((vtBuild c2faces).2.getD 0 [])[0]? =
      ((vtBuild c2faces).2.getD 1 [])[0]? ∧
    (vtBuild c2faces).1.Nodup :=
  vt_equal_coords_same_index c2faces 0 0 1 0 (0, 1)
    (by rw [c2_coords]; rfl) (by rw [c2_coords]; rfl)

/-- C9: the raster grid size equals
`max(width/(imagesize-1), height/(imagesize-1), minGridSize)`, and is
therefore never finer than the point cloud's current downsampling
resolution `self.build3d.gridsize` (nor than either image-derived term). -/
theorem gridSize_formula_never_finer (inp : TexInput) :
    gridSize inp =
      max (max ((inp.maxx - inp.minx) / (inp.imagesize - 1))
        ((inp.maxy - inp.miny) / (inp.imagesize - 1))) inp.mingrid ∧
    inp.mingrid ≤ gridSize inp ∧
    (inp.maxx - inp.minx) / (inp.imagesize - 1) ≤ gridSize inp ∧
    (inp.maxy - inp.miny) / (inp.imagesize - 1) ≤ gridSize inp :=
  ⟨rfl, le_max_right _ _,
    le_max_of_le_left (le_max_left _ _),
    le_max_of_le_left (le_max_right _ _)⟩

/-- The first-wins argmin returns its seed or one of its candidates. -/
theorem argminIdxGo_mem (f : ℕ → ℚ) :
    ∀ (js : List ℕ) (best : ℕ) (bv : ℚ),
      argminIdxGo f js best bv = best ∨ argminIdxGo f js best bv ∈ js
  | [], best, bv => Or.inl rfl
  | j :: js, best, bv => by
    simp only [argminIdxGo]
    by_cases h : f j < bv
    · rw [if_pos h]
      rcases argminIdxGo_mem f js j (f j) with h1 | h1
      · exact Or.inr (by simp [h1])
      · exact Or.inr (by simp [h1])
    · rw [if_neg h]
      rcases argminIdxGo_mem f js best bv with h1 | h1
      · exact Or.inl h1
      · exact Or.inr (by simp [h1])

/-- Membership in the selected index list means: valid index with a true
intersected mask entry. -/
theorem mem_filteredIndices (inp : TexInput) (j : ℕ)
    (h : j ∈ filteredIndices inp) :
    j < inp.pts.length ∧ (effMask inp).getD j false = true := by
  simpa only [filteredIndices, List.mem_filter, List.mem_range] using h

/-- The intersected mask entry of a valid index is the policy mask entry
conjoined with the bounding-box test. -/
theorem effMask_getD (inp : TexInput) (j : ℕ) (hj : j < inp.pts.length) :
    (effMask inp).getD j false =
      (inp.mask.getD j false && inBounds inp (inp.pts.getD j (0, 0, 0))) := by
  rw [effMask, List.getD_eq_getElem?_getD, List.getElem?_map,
    List.getElem?_range hj]
  rfl

/-- C10: for every masking policy, the cell color source returned by the
nearest-neighbor lookup is a point that passed both the incoming mask AND
the bounding-box intersection of line 747 — a point whose in-plane
projection falls outside `[minx, maxx] × [miny, maxy]` never colors a
cell, no matter the policy's mask. -/
theorem cellSource_masked_and_in_bounds (inp : TexInput) (c : ℚ × ℚ)
    (j : ℕ) (h : cellSource inp c = some j) :
    j < inp.pts.length ∧
    inp.mask.getD j false = true ∧
    inBounds inp (inp.pts.getD j (0, 0, 0)) = true := by
  have hjmem : j ∈ filteredIndices inp := by
    unfold cellSource at h
    cases hfi : filteredIndices inp with
    | nil =>
      rw [hfi] at h
      exact absurd h (by simp)
    | cons j0 js =>
      rw [hfi] at h
      injection h with h
      rcases argminIdxGo_mem _ js j0 _ with h1 | h1
      · rw [h] at h1
        simp [h1]
      · rw [h] at h1
        simp [h1]
  obtain ⟨hlt, hmask⟩ := mem_filteredIndices inp j hjmem
  rw [effMask_getD inp j hlt, Bool.and_eq_true] at hmask
  exact ⟨hlt, hmask.1, hmask.2⟩

/-- Concrete evaluation of the C10 instance's intersected mask: point 1
is masked in but projects far out of bounds. -/
theorem c10_eff : effMask c10inp = [true, false] := by
  norm_num [effMask, inBounds, c10inp, List.range_succ]

/-- Concrete evaluation of the C10 instance's selected indices. -/
theorem c10_filtered : filteredIndices c10inp = [0] := by
  rw [filteredIndices]
  simp only [c10_eff]
  norm_num [c10inp, List.range_succ, List.filter_append, List.filter_cons,
    List.filter_nil]

/-- Witness for C10: the cell at (1, 1) is colored from point 0, which is
masked and in bounds. -/
theorem cellSource_masked_and_in_bounds_witness :
    0 < c10inp.pts.length ∧
    c10inp.mask.getD 0 false = true ∧
    inBounds c10inp (c10inp.pts.getD 0 (0, 0, 0)) = true :=
  cellSource_masked_and_in_bounds c10inp (1, 1) 0
    (by rw [cellSource, c10_filtered]; rfl)

/-- Voxel downsampling of a two-point cloud whose points share a voxel:
the result is the single centroid. -/
theorem voxel_down_sample_two (s : ℚ) (p q : Pt3)
    (hk : voxelKey ((minBound [p, q]).1 - s / 2,
        (minBound [p, q]).2.1 - s / 2, (minBound [p, q]).2.2 - s / 2) s p =
      voxelKey ((minBound [p, q]).1 - s / 2,
        (minBound [p, q]).2.1 - s / 2, (minBound [p, q]).2.2 - s / 2) s q) :
    voxel_down_sample s [p, q] = [centroid [p, q]] := by
  rw [voxel_down_sample, if_neg (by simp)]
  simp only [List.map_cons, List.map_nil, hk]
  rw [firstKeysAux, if_neg (by simp), firstKeysAux,
    if_pos (by simp), firstKeysAux]
  simp only [List.map_cons, List.map_nil, List.filter]
  simp [hk]

/-- Concrete evaluation of the C4 instance's grid size. -/
theorem c4_grid : gridSize c4inp = 10 := by
  norm_num [gridSize, c4inp]

/-- Concrete evaluation of the C4 instance's intersected mask. -/
theorem c4_eff : effMask c4inp = [true, true] := by
  norm_num [effMask, inBounds, c4inp, List.range_succ]

/-- Concrete evaluation of the C4 instance's selected indices. -/
theorem c4_filteredIdx : filteredIndices c4inp = [0, 1] := by
  rw [filteredIndices]
  simp only [c4_eff]
  norm_num [c4inp, List.range_succ, List.filter_append, List.filter_cons,
    List.filter_nil]

/-- Concrete evaluation of the C4 instance's masked points. -/
theorem c4_filtered : filteredPoints c4inp = [(1, 1, 0), (1, 2, 0)] := by
  rw [filteredPoints, c4_filteredIdx]
  norm_num [c4inp]

/-- Both masked points of the C4 instance land in the same voxel of the
grid of size 10. -/
theorem c4_keys :
    voxelKey ((minBound [((1:ℚ), (1:ℚ), (0:ℚ)), (1, 2, 0)]).1 - 10 / 2,
        (minBound [((1:ℚ), (1:ℚ), (0:ℚ)), (1, 2, 0)]).2.1 - 10 / 2,
        (minBound [((1:ℚ), (1:ℚ), (0:ℚ)), (1, 2, 0)]).2.2 - 10 / 2) 10
        ((1:ℚ), (1:ℚ), (0:ℚ)) = (0, 0, 0) ∧
    voxelKey ((minBound [((1:ℚ), (1:ℚ), (0:ℚ)), (1, 2, 0)]).1 - 10 / 2,
        (minBound [((1:ℚ), (1:ℚ), (0:ℚ)), (1, 2, 0)]).2.1 - 10 / 2,
        (minBound [((1:ℚ), (1:ℚ), (0:ℚ)), (1, 2, 0)]).2.2 - 10 / 2) 10
        ((1:ℚ), (2:ℚ), (0:ℚ)) = (0, 0, 0) := by
  constructor <;>
    norm_num [voxelKey, minBound, Prod.mk.injEq, Int.floor_eq_iff, min_def]

/-- Concrete evaluation of the C4 instance's voxel-downsampled cloud. -/
theorem c4_voxel :
    voxel_down_sample (gridSize c4inp) (filteredPoints c4inp) =
      [(1, 3/2, 0)] := by
  rw [c4_grid, c4_filtered,
    voxel_down_sample_two 10 (1, 1, 0) (1, 2, 0)
      (c4_keys.1.trans c4_keys.2.symm)]
  norm_num [centroid]

/-- Concrete evaluation of the C4 instance's raster sample array: it is
the pre-downsampling masked points' in-plane coordinates. -/
theorem c4_raster :
    (create_texture_image c4inp).rasterXY = [(1, 1), (1, 2)] := by
  rw [create_texture_image,
    if_pos (show (effMask c4inp).any id = true by rw [c4_eff]; rfl)]
  simp only [c4_filtered]
  rfl

/-- C4 is false of the code: the grid size 10 exceeds twice the minimum
grid 1 and the masked subset is voxel-downsampled to the single centroid
(1, 3/2, 0), yet the raster's sample array is the two pre-downsampling
masked points — the downsampled cloud feeds only the optional PLY export,
not the nearest-neighbor color lookup. -/
theorem c4_counterexample :
    gridSize c4inp > c4inp.mingrid * 2 ∧
    (create_texture_image c4inp).rasterXY = [(1, 1), (1, 2)] ∧
    voxel_down_sample (gridSize c4inp) (filteredPoints c4inp) =
      [(1, 3/2, 0)] ∧
    (create_texture_image c4inp).rasterXY ≠
      (voxel_down_sample (gridSize c4inp) (filteredPoints c4inp)).map
        (fun p => (p.1, p.2.1)) := by
  refine ⟨?_, c4_raster, c4_voxel, ?_⟩
  · rw [c4_grid]
    norm_num [c4inp]
  · rw [c4_raster, c4_voxel]
    intro h
    have hl := congrArg List.length h
    simp at hl

/-- C4 (amended): with a nonempty intersected mask, the raster's
nearest-neighbor lookup always draws its samples from the
pre-downsampling masked points; when the grid size exceeds twice the
pipeline minimum, the voxel-downsampled subset becomes only the cloud
kept for the optional PLY export (`new_pcd`). -/
theorem raster_uses_premask_samples (inp : TexInput)
    (h : (effMask inp).any id = true) :
    (create_texture_image inp).rasterXY =
      (filteredPoints inp).map (fun p => (p.1, p.2.1)) ∧
    (gridSize inp > inp.mingrid * 2 →
      (create_texture_image inp).plyPoints =
        voxel_down_sample (gridSize inp) (filteredPoints inp)) := by
  rw [create_texture_image, if_pos h]
  exact ⟨rfl, fun hg => by simp only [if_pos hg]⟩

/-- Witness for the amended C4 at the concrete instance. -/
theorem raster_uses_premask_samples_witness :
    (create_texture_image c4inp).rasterXY =
      (filteredPoints c4inp).map (fun p => (p.1, p.2.1)) ∧
    (gridSize c4inp > c4inp.mingrid * 2 →
      (create_texture_image c4inp).plyPoints =
        voxel_down_sample (gridSize c4inp) (filteredPoints c4inp)) :=
  raster_uses_premask_samples c4inp (by rw [c4_eff]; rfl)

/-- C7: with an empty intersected mask, texture creation returns without
failing: it yields the single shared fallback name `no_texture.png` (the
same for every face, prefix, and face number) with the neutral-gray
(128,128,128) placeholder, creates the file only when it does not already
exist, and a repeated invocation against the resulting directory returns
the same name and leaves the directory unchanged. -/
theorem empty_mask_gray_fallback (inp : TexInput)
    (h : (effMask inp).any id = false) :
    (create_texture_image inp).imageName = "no_texture.png" ∧
    (create_texture_image inp).placeholderRGB = some (128, 128, 128) ∧
    ("no_texture.png" ∈ inp.fs → (create_texture_image inp).fsOut = inp.fs) ∧
    ("no_texture.png" ∉ inp.fs →
      (create_texture_image inp).fsOut = inp.fs ++ ["no_texture.png"]) ∧
    (create_texture_image
        (withFs inp (create_texture_image inp).fsOut)).imageName =
      "no_texture.png" ∧
    (create_texture_image
        (withFs inp (create_texture_image inp).fsOut)).fsOut =
      (create_texture_image inp).fsOut := by
  have hBr : ¬((effMask inp).any id = true) := by simp [h]
  have heff : effMask (withFs inp (create_texture_image inp).fsOut) =
      effMask inp := rfl
  have hBr2 : ¬((effMask
      (withFs inp (create_texture_image inp).fsOut)).any id = true) := by
    rw [heff]
    exact hBr
  have hmem1 : "no_texture.png" ∈ (create_texture_image inp).fsOut := by
    rw [create_texture_image, if_neg hBr]
    by_cases hm : "no_texture.png" ∈ inp.fs
    · simpa [if_pos hm] using hm
    · simp [if_neg hm]
  refine ⟨?_, ?_, ?_, ?_, ?_, ?_⟩
  · rw [create_texture_image, if_neg hBr]
  · rw [create_texture_image, if_neg hBr]
  · intro hm
    rw [create_texture_image, if_neg hBr]
    simp [if_pos hm]
  · intro hm
    rw [create_texture_image, if_neg hBr]
    simp [if_neg hm]
  · rw [create_texture_image, if_neg hBr2]
  · conv_lhs => rw [create_texture_image, if_neg hBr2]
    simp only [withFs]
    rw [if_pos hmem1]

/-- Concrete evaluation of the C7 instance's intersected mask: its only
point projects outside the bounding box. -/
theorem c7_eff : effMask c7inp = [false] := by
  norm_num [effMask, inBounds, c7inp, List.range_succ]

/-- Witness for C7 at the concrete instance. -/
theorem empty_mask_gray_fallback_witness :
    (create_texture_image c7inp).imageName = "no_texture.png" ∧
    (create_texture_image c7inp).placeholderRGB = some (128, 128, 128) ∧
    ("no_texture.png" ∈ c7inp.fs → (create_texture_image c7inp).fsOut = c7inp.fs) ∧
    ("no_texture.png" ∉ c7inp.fs →
      (create_texture_image c7inp).fsOut = c7inp.fs ++ ["no_texture.png"]) ∧
    (create_texture_image
        (withFs c7inp (create_texture_image c7inp).fsOut)).imageName =
      "no_texture.png" ∧
    (create_texture_image
        (withFs c7inp (create_texture_image c7inp).fsOut)).fsOut =
      (create_texture_image c7inp).fsOut :=
  empty_mask_gray_fallback c7inp (by rw [c7_eff]; rfl)

/-- Dot square of a 3-vector is nonnegative. -/
theorem V3.dot_self_nonneg (v : V3) : 0 ≤ v.dot v := by
  unfold V3.dot
  nlinarith [mul_self_nonneg v.x, mul_self_nonneg v.y, mul_self_nonneg v.z]

/-- Dot square vanishes only on the zero vector. -/
theorem V3.dot_self_eq_zero_iff (v : V3) : v.dot v = 0 ↔ v = V3.zero := by
  constructor
  · intro h
    unfold V3.dot at h
    have hx : v.x * v.x = 0 := le_antisymm
      (by nlinarith [mul_self_nonneg v.y, mul_self_nonneg v.z])
      (mul_self_nonneg _)
    have hy : v.y * v.y = 0 := le_antisymm
      (by nlinarith [mul_self_nonneg v.x, mul_self_nonneg v.z])
      (mul_self_nonneg _)
    have hz : v.z * v.z = 0 := le_antisymm
      (by nlinarith [mul_self_nonneg v.x, mul_self_nonneg v.y])
      (mul_self_nonneg _)
    exact V3.ext (mul_self_eq_zero.mp hx) (mul_self_eq_zero.mp hy)
      (mul_self_eq_zero.mp hz)
  · intro h
    rw [h]
    unfold V3.dot V3.zero
    norm_num

/-- The norm squares back to the dot square. -/
theorem V3.norm_mul_self (v : V3) : v.norm * v.norm = v.dot v :=
  Real.mul_self_sqrt (V3.dot_self_nonneg v)

/-- Dot product of two normalized vectors. -/
theorem V3.dot_normalize (a b : V3) :
    (a.normalize).dot (b.normalize) = a.dot b / (a.norm * b.norm) := by
  unfold V3.normalize V3.dot
  rw [div_mul_div_comm, div_mul_div_comm, div_mul_div_comm,
    div_add_div_same, div_add_div_same]

/-- Normalizing a nonzero vector yields a unit vector. -/
theorem V3.norm_normalize (v : V3) (h : v ≠ V3.zero) :
    v.normalize.norm = 1 := by
  have hd : v.dot v ≠ 0 := fun he => h ((V3.dot_self_eq_zero_iff v).mp he)
  have h1 : (v.normalize).dot (v.normalize) = 1 := by
    rw [V3.dot_normalize, V3.norm_mul_self, div_self hd]
  rw [V3.norm, h1, Real.sqrt_one]

/-- A vector is orthogonal to its cross product with anything. -/
theorem V3.dot_cross_left (a b : V3) : a.dot (a.cross b) = 0 := by
  unfold V3.dot V3.cross
  ring

/-- A vector is orthogonal to anything crossed with it. -/
theorem V3.dot_cross_mid (a c : V3) : a.dot (c.cross a) = 0 := by
  unfold V3.dot V3.cross
  ring

/-- A cross product is orthogonal to its left factor. -/
theorem V3.cross_dot_left (n a : V3) : (n.cross a).dot n = 0 := by
  unfold V3.dot V3.cross
  ring

/-- A cross product is orthogonal to its left factor (stated for the
right factor of the dot). -/
theorem V3.cross_dot_self (a b : V3) : (a.cross b).dot a = 0 := by
  unfold V3.dot V3.cross
  ring

/-- Lagrange identity for the 3-dimensional cross product. -/
theorem V3.lagrange (a b : V3) :
    (a.cross b).dot (a.cross b) = a.dot a * (b.dot b) - a.dot b * (a.dot b) := by
  unfold V3.dot V3.cross
  ring

/-- The cross product of orthogonal nonzero vectors is nonzero. -/
theorem V3.cross_ne_zero_of_perp (n a : V3) (hn : n ≠ V3.zero)
    (ha : a ≠ V3.zero) (hperp : n.dot a = 0) : n.cross a ≠ V3.zero := by
  intro h
  have h0 : (n.cross a).dot (n.cross a) = 0 := by
    rw [h]
    unfold V3.dot V3.zero
    norm_num
  rw [V3.lagrange, hperp] at h0
  have hn0 : 0 < n.dot n :=
    lt_of_le_of_ne (V3.dot_self_nonneg n)
      (fun he => hn ((V3.dot_self_eq_zero_iff n).mp he.symm))
  have ha0 : 0 < a.dot a :=
    lt_of_le_of_ne (V3.dot_self_nonneg a)
      (fun he => ha ((V3.dot_self_eq_zero_iff a).mp he.symm))
  nlinarith

/-- C6: when the first edge and the closing edge are non-zero and
non-parallel (their cross product, the raw face normal, is nonzero), the
three columns of `projection_matrix` are orthonormal: unit norms, pairwise
zero dot products, column 0 the unit vector along the first edge, column 2
the unit normal `normalize(cross(v0, vLast - v0))` given by the right-hand
rule on the ring winding. -/
theorem projection_matrix_orthonormal (verts : List V3)
    (h0 : edge0 verts ≠ V3.zero)
    (hL : edgeLast verts ≠ V3.zero)
    (hn : rawNormal verts ≠ V3.zero) :
    (projCol0 verts).norm = 1 ∧ (projCol1 verts).norm = 1 ∧
    (projCol2 verts).norm = 1 ∧
    (projCol0 verts).dot (projCol1 verts) = 0 ∧
    (projCol0 verts).dot (projCol2 verts) = 0 ∧
    (projCol1 verts).dot (projCol2 verts) = 0 ∧
    projCol0 verts = (edge0 verts).normalize ∧
    projCol2 verts = ((edge0 verts).cross (edgeLast verts)).normalize := by
  have hperp : (rawNormal verts).dot (edge0 verts) = 0 := by
    rw [rawNormal]
    exact V3.cross_dot_self _ _
  have h1 : rawInPlane verts ≠ V3.zero := by
    rw [rawInPlane]
    exact V3.cross_ne_zero_of_perp _ _ hn h0 hperp
  refine ⟨V3.norm_normalize _ h0, V3.norm_normalize _ h1,
    V3.norm_normalize _ hn, ?_, ?_, ?_, rfl, rfl⟩
  · rw [projCol0, projCol1, V3.dot_normalize, rawInPlane,
      V3.dot_cross_mid, zero_div]
  · rw [projCol0, projCol2, V3.dot_normalize, rawNormal,
      V3.dot_cross_left, zero_div]
  · rw [projCol1, projCol2, V3.dot_normalize, rawInPlane,
      V3.cross_dot_left, zero_div]

/-- Witness for C6 at the unit-square face. -/
theorem projection_matrix_orthonormal_witness :
    (projCol0 c6verts).norm = 1 ∧ (projCol1 c6verts).norm = 1 ∧
    (projCol2 c6verts).norm = 1 ∧
    (projCol0 c6verts).dot (projCol1 c6verts) = 0 ∧
    (projCol0 c6verts).dot (projCol2 c6verts) = 0 ∧
    (projCol1 c6verts).dot (projCol2 c6verts) = 0 ∧
    projCol0 c6verts = (edge0 c6verts).normalize ∧
    projCol2 c6verts = ((edge0 c6verts).cross (edgeLast c6verts)).normalize :=
  projection_matrix_orthonormal c6verts
    (by simp [edge0, shiftedVerts, faceOrigin, c6verts, V3.sub, V3.zero,
      V3.mk.injEq])
    (by simp [edgeLast, shiftedVerts, faceOrigin, c6verts, V3.sub, V3.zero,
      V3.mk.injEq, List.getLastD])
    (by simp [rawNormal, edge0, edgeLast, shiftedVerts, faceOrigin, c6verts,
      V3.sub, V3.cross, V3.zero, V3.mk.injEq, List.getLastD])
